import Mathlib

/-!
Verification of the microapi storage-and-execution engine.

This file shallowly embeds the core of the microapi JSON document service:
the filter-operator compiler (internal/query/operators.go), the where-clause
path canonicalizer (toJSONPath), the index manager (internal/database/index.go),
the document handlers (CreateDocument, GetDocument, ReplaceDocument,
QueryCollection and the MCP query variant), the Lua function executor and its
commit policy (internal/luafn), and the execution statistics accumulator
(FunctionStats.UpdateStats). Machine integers are modeled as Int or Nat with
explicit reduction modulo 2 ^ 32 where the source relies on 32-bit wraparound
(the SHA-1 digest used for index names); Go float64 statistics are modeled as
rationals; fallible operations return Except or Option.
-/

namespace MicroApi

/-- Tagged JSON value: the dynamic payload type used throughout the service
(Go `map[string]any` / `[]any` / scalars decoded from JSON). -/
inductive Val where
  | null
  | boolean (b : Bool)
  | num (q : ℚ)
  | str (s : String)
  | arr (xs : List Val)
  | obj (fields : List (String × Val))
deriving Repr, Inhabited

mutual

/-- Structural equality on values (model of SQL = between two bound scalars;
also used for document payload comparison). -/
def Val.beq : Val → Val → Bool
  | .null, .null => true
  | .boolean a, .boolean b => a == b
  | .num a, .num b => a == b
  | .str a, .str b => a == b
  | .arr a, .arr b => Val.beqList a b
  | .obj a, .obj b => Val.beqFields a b
  | _, _ => false

def Val.beqList : List Val → List Val → Bool
  | [], [] => true
  | a :: as, b :: bs => Val.beq a b && Val.beqList as bs
  | _, _ => false

def Val.beqFields : List (String × Val) → List (String × Val) → Bool
  | [], [] => true
  | (ka, va) :: as, (kb, vb) :: bs => ka == kb && Val.beq va vb && Val.beqFields as bs
  | _, _ => false

end

instance : BEq Val := ⟨Val.beq⟩

/-- SQLite type rank for ordering heterogeneous non-null values
(numbers sort before text). Booleans are bound by the Go driver as integers,
so they share the numeric rank here. -/
def Val.rank : Val → Nat
  | .null => 0
  | .boolean _ => 1
  | .num _ => 1
  | .str _ => 2
  | .arr _ => 3
  | .obj _ => 4

/-- Numeric view of a value for comparisons at the numeric rank
(a Go bool binds as 0 or 1). -/
def Val.asNum : Val → ℚ
  | .boolean b => if b then 1 else 0
  | .num q => q
  | _ => 0

/-- Total comparison on non-null values, modeling SQLite value ordering:
first by type rank, then within numbers by numeric order and within text by
lexicographic order. Arrays and objects cannot be bound as SQL parameters, so
comparisons at those ranks fall back to structural equality. -/
def Val.leB (a b : Val) : Bool :=
  if a.rank < b.rank then true
  else if b.rank < a.rank then false
  else match a, b with
    | .num _, _ => decide (a.asNum ≤ b.asNum)
    | .boolean _, _ => decide (a.asNum ≤ b.asNum)
    | .str s, .str t => decide (s ≤ t)
    | x, y => Val.beq x y

/-- Three-valued SQL equality: comparisons with NULL yield NULL (none). -/
def sqlEq (a b : Val) : Option Bool :=
  match a, b with
  | .null, _ => none
  | _, .null => none
  | x, y => some (Val.beq x y)

/-- Three-valued SQL less-or-equal. -/
def sqlLe (a b : Val) : Option Bool :=
  match a, b with
  | .null, _ => none
  | _, .null => none
  | x, y => some (Val.leB x y)

/-- Three-valued SQL logical AND (FALSE absorbs NULL, TRUE passes it through). -/
def and3 : Option Bool → Option Bool → Option Bool
  | some false, _ => some false
  | _, some false => some false
  | some true, x => x
  | x, some true => x
  | none, none => none

/-- Three-valued SQL logical NOT. -/
def not3 : Option Bool → Option Bool
  | some b => some (!b)
  | none => none

/-- ASCII lowercase fold, modeling both SQL LOWER() and the ASCII
case-insensitivity of SQLite LIKE. -/
def foldChar (c : Char) : Char :=
  if 'A' ≤ c ∧ c ≤ 'Z' then Char.ofNat (c.toNat + 32) else c

/-- SQLite LIKE pattern matching over character lists: percent matches any
run, underscore matches one character, other characters match ASCII
case-insensitively. -/
def likeMatchL : List Char → List Char → Bool
  | [], [] => true
  | [], _ :: _ => false
  | '%' :: ps, [] => likeMatchL ps []
  | '%' :: ps, c :: ts =>
      likeMatchL ps (c :: ts) || likeMatchL ('%' :: ps) ts
  | '_' :: ps, _ :: ts => likeMatchL ps ts
  | _ :: _, [] => false
  | p :: ps, c :: ts => (foldChar p == foldChar c) && likeMatchL ps ts
termination_by ps ts => (ps.length, ts.length)

/-- SQLite LIKE on strings. -/
def likeMatch (pattern text : String) : Bool :=
  likeMatchL pattern.toList text.toList

/-- CAST(v AS TEXT), approximated: integers render without a fractional part,
other rationals in numerator-slash-denominator form (the LIKE operators in the
claims are never exercised on non-integer numbers). -/
def castText : Val → Option String
  | .null => none
  | .boolean b => some (if b then "1" else "0")
  | .num q => some (if q.den = 1 then toString q.num else toString q)
  | .str s => some s
  | .arr _ => none
  | .obj _ => none

/-- The SQL fragment shapes produced by query.ToSQL
(internal/query/operators.go). Each constructor corresponds to one string
shape emitted by the Go switch; the extracted expression the fragment is
applied to is supplied at evaluation time. -/
inductive Frag where
  | cmp (sqlOp : String) (v : Val)
  | textLike (lowered : Bool) (preWild : Bool) (postWild : Bool) (v : Val)
  | inList (vals : List Val)
  | notInList (vals : List Val)
  | betweenRange (lo hi : Val)
  | constTrue
  | constFalse
  | isNull
  | notNull
deriving Repr

/-- Go: toInterfaceSlice — succeeds exactly on array values. -/
def toInterfaceSlice : Val → Option (List Val)
  | .arr xs => some xs
  | _ => none

/-- query.ToSQL (internal/query/operators.go lines 37 to 95): translates an
operator token and its operand into a SQL fragment. Mirrors the Go switch,
including the comparison-symbol map, the empty-array conventions for in and
nin (1=0 and 1=1), and the two-element check for between. -/
def ToSQL (op : String) (val : Val) : Except String Frag :=
  match op with
  | "$eq" => .ok (.cmp "=" val)
  | "$ne" => .ok (.cmp "!=" val)
  | "$gt" => .ok (.cmp ">" val)
  | "$gte" => .ok (.cmp ">=" val)
  | "$lt" => .ok (.cmp "<" val)
  | "$lte" => .ok (.cmp "<=" val)
  | "$like" => .ok (.textLike false false false val)
  | "$ilike" => .ok (.textLike true false false val)
  | "$startsWith" => .ok (.textLike false false true val)
  | "$endsWith" => .ok (.textLike false true false val)
  | "$contains" => .ok (.textLike false true true val)
  | "$istartsWith" => .ok (.textLike true false true val)
  | "$iendsWith" => .ok (.textLike true true false val)
  | "$icontains" => .ok (.textLike true true true val)
  | "$in" =>
      match toInterfaceSlice val with
      | none => .error "operator $in expects an array value"
      | some [] => .ok .constFalse
      | some vs => .ok (.inList vs)
  | "$nin" =>
      match toInterfaceSlice val with
      | none => .error "operator $nin expects an array value"
      | some [] => .ok .constTrue
      | some vs => .ok (.notInList vs)
  | "$between" =>
      match toInterfaceSlice val with
      | some [lo, hi] => .ok (.betweenRange lo hi)
      | _ => .error "operator $between expects a two-element array [min, max]"
  | "$isNull" => .ok .isNull
  | "$notNull" => .ok .notNull
  | _ => .error ("unsupported operator: " ++ op)

/-- Three-valued result of an IN list: true if some element equals the
subject, NULL if no element matches but a NULL comparison occurred,
false otherwise (SQLite semantics). -/
def inList3 (e : Val) (vals : List Val) : Option Bool :=
  if vals.any (fun u => sqlEq e u == some true) then some true
  else if vals.any (fun u => sqlEq e u == none) then none
  else some false

/-- SQLite evaluation of a fragment against the value e of
json_extract(data, path) for one row (SQL NULL is Val.null). -/
def evalFrag (f : Frag) (e : Val) : Option Bool :=
  match f with
  | .cmp op v =>
      match op with
      | "=" => sqlEq e v
      | "!=" => not3 (sqlEq e v)
      | "<=" => sqlLe e v
      | ">=" => sqlLe v e
      | "<" => not3 (sqlLe v e)
      | ">" => not3 (sqlLe e v)
      | _ => none
  | .textLike lowered preWild postWild v =>
      match castText e, castText v with
      | some t, some p =>
          let pat := (if preWild then "%" else "") ++ p ++ (if postWild then "%" else "")
          let _ := lowered
          some (likeMatch pat t)
      | _, _ => none
  | .inList vals => inList3 e vals
  | .notInList vals => not3 (inList3 e vals)
  | .betweenRange lo hi => and3 (sqlLe lo e) (sqlLe e hi)
  | .constTrue => some true
  | .constFalse => some false
  | .isNull => some (e == Val.null)
  | .notNull => some (e != Val.null)

/-- A row is selected by an operator condition when the compiled fragment
evaluates to TRUE on the extracted value (NULL and FALSE both reject,
as in a SQL WHERE). A compilation error selects nothing. -/
def selectsRow (op : String) (val : Val) (e : Val) : Bool :=
  match ToSQL op val with
  | .ok f => (evalFrag f e).getD false
  | .error _ => false

/-! ### Where-clause path canonicalization (toJSONPath, unnamed query parser file) -/

/-- The single-quote character, written by code point to keep it out of
literals. -/
def squote : Char := Char.ofNat 39

/-- String form of the single-quote character. -/
def squoteStr : String := String.mk [squote]

/-- strings.Split specialized to a one-character separator, over the
character list of the string. -/
def splitSepL (sep : Char) : List Char → List Char → List (List Char)
  | [], cur => [cur.reverse]
  | c :: rest, cur =>
      if c = sep then cur.reverse :: splitSepL sep rest []
      else splitSepL sep rest (c :: cur)

/-- strings.Split(s, sep) for a one-character separator. -/
def splitSep (sep : Char) (s : String) : List String :=
  (splitSepL sep s.toList []).map String.mk

/-- strings.ReplaceAll(p, single-quote, two single-quotes): doubles every
single quote in a path segment before it is embedded in SQL. -/
def doubleQuotes (s : String) : String :=
  String.mk (s.toList.flatMap (fun c => if c = squote then [squote, squote] else [c]))

/-- toJSONPath from the where-clause parser: splits the key on dots, doubles
single quotes in each segment, and unconditionally prepends the dollar-dot
prefix to the rejoined segments. -/
def toJSONPath (dot : String) : String :=
  "$." ++ String.intercalate "." ((splitSep '.' dot).map doubleQuotes)

/-- Field lookup in a JSON object (first binding wins, as Go map keys are
unique). -/
def lookupField : List (String × Val) → String → Option Val
  | [], _ => none
  | (k, v) :: rest, key => if k == key then some v else lookupField rest key

/-- Descend through object fields along a segment list; a missing or
non-object step yields SQL NULL, as json_extract does. -/
def extractSegs : Val → List String → Val
  | v, [] => v
  | .obj fs, s :: rest =>
      match lookupField fs s with
      | some v => extractSegs v rest
      | none => .null
  | _, _ :: _ => .null

/-- Model of SQLite json_extract(data, path) for object-label paths: the
leading dollar names the root, each following label descends one field. -/
def jsonExtract (d : Val) (path : String) : Val :=
  match splitSep '.' path with
  | "$" :: segs => extractSegs d segs
  | segs => extractSegs d segs

/-! ### Document handlers (handlers package: CreateDocument, GetDocument,
ReplaceDocument, QueryCollection; sanitize helpers) -/

/-- Document payload: a decoded JSON object (Go map[string]any). -/
abbrev Doc := List (String × Val)

/-- One row of a per-set data table: id, collection, data, created_at,
updated_at. -/
structure Row where
  id : String
  collection : String
  data : Doc
  created_at : Int
  updated_at : Int
deriving Repr

/-- A per-set physical table. -/
abbrev Table := List Row

/-- middleware.HTTPError. -/
structure HTTPError where
  Code : Nat
  Message : String
deriving Repr

/-- Go delete(body, key) on a decoded JSON object. -/
def eraseKey (d : Doc) (k : String) : Doc :=
  d.filter (fun kv => kv.1 != k)

/-- strings.HasPrefix(k, underscore): true when the key begins with an
underscore. -/
def startsUnderscore (k : String) : Bool :=
  match k.toList with
  | c :: _ => c == '_'
  | [] => false

/-- Reject any remaining top-level key beginning with an underscore. The Go
message wraps the underscore in single quotes; the quotes are reproduced via
squoteStr. -/
def reservedFieldCheck (d : Doc) : Except HTTPError Doc :=
  if d.any (fun kv => startsUnderscore kv.1) then
    .error ⟨400, "fields starting with " ++ squoteStr ++ "_" ++ squoteStr ++ " are reserved"⟩
  else .ok d

/-- sanitizeForCreate: drops an optional top-level _meta and rejects any
other top-level key starting with an underscore. -/
def sanitizeForCreate (body : Doc) : Except HTTPError Doc :=
  reservedFieldCheck (eraseKey body "_meta")

/-- sanitizeForPutPatch: an optional _meta must be an object and, when it
carries an id, that id must equal the route id as a string; _meta is then
dropped and the remaining keys are checked as in create. -/
def sanitizeForPutPatch (body : Doc) (id : String) : Except HTTPError Doc :=
  match lookupField body "_meta" with
  | some (.obj meta) =>
      match lookupField meta "id" with
      | some (.str sid) =>
          if sid == id then reservedFieldCheck (eraseKey body "_meta")
          else .error ⟨400, "body _meta.id must match resource id"⟩
      | some _ => .error ⟨400, "body _meta.id must match resource id"⟩
      | none => reservedFieldCheck (eraseKey body "_meta")
  | some _ => .error ⟨400, "_meta must be an object"⟩
  | none => reservedFieldCheck body

/-- A document response: HTTP status, payload, and the synthesized _meta
fields (the Go writeDocResponse injects id, created_at, updated_at into the
payload map; they are modeled as distinguished fields here). -/
structure DocResponse where
  status : Nat
  data : Doc
  metaId : String
  metaCreated : Int
  metaUpdated : Int
deriving Repr

/-- Handlers.CreateDocument: sanitizes the body, validates it against the
collection schema (the external JSON-Schema library is abstracted as the
check argument; with no schema bound it returns none), then inserts the row
with a fresh id and created_at = updated_at = now. A primary-key conflict on
the id surfaces as a database error through writeErr (500). Responds 201 with
the sanitized payload and synthesized meta. -/
def CreateDocument (check : Doc → Option String) (tbl : Table)
    (collection : String) (body : Doc) (freshId : String) (now : Int) :
    Except HTTPError (Table × DocResponse) :=
  match sanitizeForCreate body with
  | .error e => .error e
  | .ok sanitized =>
    match check sanitized with
    | some msg => .error ⟨400, msg⟩
    | none =>
      if tbl.any (fun r => r.id == freshId) then
        .error ⟨500, "UNIQUE constraint failed"⟩
      else
        .ok (tbl ++ [⟨freshId, collection, sanitized, now, now⟩],
             ⟨201, sanitized, freshId, now, now⟩)

/-- Handlers.GetDocument: selects the row by id and collection; absent rows
give 404, present rows give 200 with the stored payload and synthesized
meta. -/
def GetDocument (tbl : Table) (collection id : String) :
    Except HTTPError DocResponse :=
  match tbl.find? (fun r => r.id == id && r.collection == collection) with
  | none => .error ⟨404, "not found"⟩
  | some r => .ok ⟨200, r.data, r.id, r.created_at, r.updated_at⟩

/-- Handlers.ReplaceDocument: sanitizes and validates, issues the UPDATE
(which silently affects zero rows when the document is absent), then reads
created_at and updated_at back. When no row matches, that read fails with
sql.ErrNoRows, which writeErr reports as a 500 with the raw driver message,
not as a 404. -/
def ReplaceDocument (check : Doc → Option String) (tbl : Table)
    (collection id : String) (body : Doc) (now : Int) :
    Except HTTPError (Table × DocResponse) :=
  match sanitizeForPutPatch body id with
  | .error e => .error e
  | .ok sanitized =>
    match check sanitized with
    | some msg => .error ⟨400, msg⟩
    | none =>
      let tbl2 := tbl.map (fun r =>
        if r.id == id && r.collection == collection then
          { r with data := sanitized, updated_at := now }
        else r)
      match tbl2.find? (fun r => r.id == id && r.collection == collection) with
      | none => .error ⟨500, "sql: no rows in result set"⟩
      | some r => .ok (tbl2, ⟨200, sanitized, id, r.created_at, r.updated_at⟩)

/-! ### Collection query and index metadata (internal/handlers/collection.go,
internal/database/index.go) -/

/-- The JSON encoding of the response data field: Go marshals a nil slice as
null and a non-nil slice as an array, so the two outcomes are distinct wire
values. -/
inductive RespData where
  | null
  | list (items : List Doc)
deriving Repr

/-- One idx_metadata row (set_name, collection_name, idx_name, paths CSV,
status, error, usage_count, last_used_at, created_at). -/
structure IdxRow where
  set_name : String
  collection_name : String
  idx_name : String
  paths : String
  status : String
  error : Option String
  usage_count : Int
  last_used_at : Option Int
  created_at : Int
deriving Repr

/-- Global server state touched by a collection query: the physical set
table and the idx_metadata rows. -/
structure ServerState where
  tbl : Table
  idx : List IdxRow
deriving Repr

/-- A parsed where condition: raw key, operator token, operand (the shape
ParseWhere feeds to ToSQL after canonicalizing the key with toJSONPath). -/
abbrev WhereCond := String × String × Val

/-- A row satisfies a parsed where clause when every compiled condition
evaluates to TRUE on the value extracted along the canonicalized path
(conditions on one or several paths AND together in the WHERE). -/
def rowMatchesWhere (conds : List WhereCond) (d : Doc) : Bool :=
  conds.all (fun c => selectsRow c.2.1 c.2.2 (jsonExtract (.obj d) (toJSONPath c.1)))

/-- The rows of the collection matching the where clause, in table order
(the shared WHERE of BuildSelect and BuildCount). -/
def matchedRows (tbl : Table) (collection : String) (conds : List WhereCond) :
    List Row :=
  tbl.filter (fun r => r.collection == collection && rowMatchesWhere conds r.data)

/-- LIMIT and OFFSET as emitted by BuildSelect: a limit is applied only when
positive, and the offset only once a limit is present and non-negative. -/
def applyPage (limit offset : Int) (rows : List Row) : List Row :=
  if 0 < limit then
    (if -1 < offset then rows.drop offset.toNat else rows).take limit.toNat
  else rows

/-- Payload of one query item: the stored document with the synthesized
_meta object injected. -/
def docWithMeta (r : Row) : Doc :=
  r.data ++ [("_meta", .obj
    [("id", .str r.id),
     ("created_at", .num r.created_at),
     ("updated_at", .num r.updated_at)])]

/-- Handlers.QueryCollection (REST): counts the matches, selects the page,
and marshals the accumulated slice. The Go handler declares the results
slice with var (nil) and appends one element per scanned row, so an empty
result marshals as JSON null; and it performs no write at all, in particular
no call to UpdateIndexUsage, so the returned state is the input state.
X-Total-Items is the unpaged count. -/
def QueryCollection (st : ServerState) (collection : String)
    (conds : List WhereCond) (limit offset : Int) :
    ServerState × Nat × Nat × RespData :=
  let matched := matchedRows st.tbl collection conds
  let paged := applyPage limit offset matched
  let data := if paged.isEmpty then RespData.null
              else RespData.list (paged.map docWithMeta)
  (st, 200, matched.length, data)

/-- queryCollectionMCP (MCP handlers file): identical query pipeline, but the
handler replaces a nil results slice by an allocated empty one before
marshalling, so an empty result is the empty array. -/
def QueryCollectionMCP (st : ServerState) (collection : String)
    (conds : List WhereCond) (limit offset : Int) :
    ServerState × Nat × Nat × RespData :=
  let matched := matchedRows st.tbl collection conds
  let paged := applyPage limit offset matched
  (st, 200, matched.length, RespData.list (paged.map docWithMeta))

/-- database.UpdateIndexUsage: for every idx_metadata row of the set and
collection whose status is ready and whose comma-separated path list is
contained in the used paths, increments usage_count and stamps last_used_at;
all other rows are untouched. An empty used-path list is a no-op. -/
def UpdateIndexUsage (idx : List IdxRow) (set collection : String)
    (usedPaths : List String) (now : Int) : List IdxRow :=
  if usedPaths.isEmpty then idx
  else idx.map (fun r =>
    if r.set_name == set && r.collection_name == collection
        && r.status == "ready"
        && (splitSep ',' r.paths).all (fun p => usedPaths.contains p) then
      { r with usage_count := r.usage_count + 1, last_used_at := some now }
    else r)

/-! ### Lua function executor (internal/luafn/service.go, handler file) -/

/-- One database statement issued by a script through the db API on the
enclosing transaction: luaCreate issues the INSERT, luaUpdate and luaPatch
the same UPDATE shape (patch carries the merged document), luaDelete the
DELETE. -/
inductive DbEffect where
  | insertRow (row : Row)
  | updateRow (id collection : String) (data : Doc) (now : Int)
  | deleteRow (id collection : String)
deriving Repr

/-- SQL semantics of one effect on the set table: INSERT appends when the id
is fresh and affects nothing on a primary-key conflict (the statement errors
and luaCreate reports it to the script); UPDATE rewrites data and updated_at
of the row matching id and collection; DELETE removes it. -/
def applyEffect (tbl : Table) : DbEffect → Table
  | .insertRow row =>
      if tbl.any (fun r => r.id == row.id) then tbl else tbl ++ [row]
  | .updateRow id coll data now =>
      tbl.map (fun r =>
        if r.id == id && r.collection == coll then
          { r with data := data, updated_at := now }
        else r)
  | .deleteRow id coll =>
      tbl.filter (fun r => !(r.id == id && r.collection == coll))

/-- The accumulated transaction effects, applied in order. -/
def applyEffects (tbl : Table) (effs : List DbEffect) : Table :=
  effs.foldl applyEffect tbl

/-- Outcome of running the script body on the pooled VM within its budget:
completion (carrying the extracted http_status, already defaulted to 200
when the global is non-numeric), a Lua runtime error, or expiry of the
wall-clock timeout. Each carries the db effects the script had issued on the
transaction before stopping. -/
inductive ScriptOutcome where
  | completed (httpStatus : Int) (effects : List DbEffect)
  | luaError (msg : String) (effects : List DbEffect)
  | timedOut (effects : List DbEffect)
deriving Repr

/-- The effects a script issued on its transaction. -/
def ScriptOutcome.effects : ScriptOutcome → List DbEffect
  | .completed _ effs => effs
  | .luaError _ effs => effs
  | .timedOut effs => effs

/-- Service.ExecuteFunction result fields relevant to the commit gate. -/
structure ExecutionResult where
  HTTPStatus : Int
  Error : Option String
deriving Repr

/-- Service.ExecuteFunction (service.go lines 64 to 115): a runtime error
forces HTTPStatus 500 with a non-nil Error; a timeout forces 504 with a
non-nil Error; completion keeps the extracted status with a nil Error. -/
def ServiceExecuteFunction : ScriptOutcome → ExecutionResult
  | .completed s _ => ⟨s, none⟩
  | .luaError msg _ => ⟨500, some ("lua execution error: " ++ msg)⟩
  | .timedOut _ => ⟨504, some "function execution timeout"⟩

/-- Transaction terminator: Commit applies the accumulated effects to the
table, Rollback discards them. -/
def runInTx (tbl : Table) (effects : List DbEffect) (commit : Bool) : Table :=
  if commit then applyEffects tbl effects else tbl

/-- The commit decision of Handlers.ExecuteFunction, verbatim:
result.HTTPStatus at least 200, below 300, and result.Error nil. -/
def shouldCommit (result : ExecutionResult) : Bool :=
  decide (200 ≤ result.HTTPStatus) && decide (result.HTTPStatus < 300)
    && result.Error.isNone

/-- Handlers.ExecuteFunction: runs the script in a fresh transaction,
commits when shouldCommit holds and rolls back otherwise. Returns the final
table, the execution result, and whether the transaction committed. -/
def ExecuteFunction (tbl : Table) (outcome : ScriptOutcome) :
    Table × ExecutionResult × Bool :=
  let result := ServiceExecuteFunction outcome
  let commit := shouldCommit result
  (runInTx tbl outcome.effects commit, result, commit)

/-- The commit policy in the words of the spec: commit exactly when the
script ran to completion without a runtime error, did not time out, and the
extracted http_status lies in the half-open range from 200 to 300. -/
def specCommitPolicy : ScriptOutcome → Bool
  | .completed s _ => decide (200 ≤ s) && decide (s < 300)
  | .luaError _ _ => false
  | .timedOut _ => false

/-- Sandbox response data (warning and status fields of SandboxResult). -/
structure SandboxResult where
  HTTPStatus : Int
  Warning : String
deriving Repr

/-- Handlers.ExecuteSandbox: identical execution, but the deferred Rollback
is the only transaction terminator - Commit is never invoked - and the
response data always carries the fixed warning string. -/
def ExecuteSandbox (tbl : Table) (outcome : ScriptOutcome) :
    Table × SandboxResult :=
  let result := ServiceExecuteFunction outcome
  (runInTx tbl outcome.effects false,
   ⟨result.HTTPStatus, "Sandbox mode - no changes were saved"⟩)

/-! ### Function execution statistics (FunctionStats, luafn models file) -/

/-- FunctionStats: int64 counters, float64 rate and average modeled as
rationals, the error breakdown as an association list keyed by the
stringified status. -/
structure FunctionStats where
  TotalExecutions : Int
  SuccessCount : Int
  ErrorCount : Int
  SuccessRate : ℚ
  AvgDurationMs : ℚ
  LastExecuted : String
  ErrorBreakdown : List (String × Int)
deriving Repr

/-- NewFunctionStats: all counters zero, empty breakdown. -/
def NewFunctionStats : FunctionStats :=
  ⟨0, 0, 0, 0, 0, "", []⟩

/-- Increment of one key of the breakdown map (a missing key starts at
zero, so the first bump stores one). -/
def bumpKey : List (String × Int) → String → List (String × Int)
  | [], k => [(k, 1)]
  | (k0, n) :: rest, k =>
      if k0 == k then (k0, n + 1) :: rest else (k0, n) :: bumpKey rest k

/-- FunctionStats.UpdateStats: increments the total, stamps the execution
time, counts the run as a success when the status lies in the 2xx range and
as an error otherwise, recomputes the success rate when the total is
positive, folds the duration into the rolling average, and bumps the
breakdown entry of the stringified status. -/
def UpdateStats (s : FunctionStats) (httpStatus : Int) (durationMs : ℚ)
    (nowStr : String) : FunctionStats :=
  let total := s.TotalExecutions + 1
  let isSuccess : Bool := decide (200 ≤ httpStatus) && decide (httpStatus < 300)
  let success := if isSuccess then s.SuccessCount + 1 else s.SuccessCount
  let errors := if isSuccess then s.ErrorCount else s.ErrorCount + 1
  let rate := if 0 < total then (success : ℚ) / (total : ℚ) else s.SuccessRate
  let avg := (s.AvgDurationMs * ((total : ℚ) - 1) + durationMs) / (total : ℚ)
  { TotalExecutions := total
    SuccessCount := success
    ErrorCount := errors
    SuccessRate := rate
    AvgDurationMs := avg
    LastExecuted := nowStr
    ErrorBreakdown := bumpKey s.ErrorBreakdown (toString httpStatus) }

/-- A finite execution history applied to the fresh stats object: each entry
carries the returned status, the duration in milliseconds, and the
formatted execution time. -/
def applyAllStats (updates : List (Int × ℚ × String)) : FunctionStats :=
  updates.foldl (fun s u => UpdateStats s u.1 u.2.1 u.2.2) NewFunctionStats

/-- Sum of all values of the breakdown map. -/
def sumBreakdown (b : List (String × Int)) : Int :=
  (b.map Prod.snd).sum

/-- The stats bookkeeping invariant of the claim. -/
def statsInvariant (s : FunctionStats) : Prop :=
  s.TotalExecutions = s.SuccessCount + s.ErrorCount
    ∧ sumBreakdown s.ErrorBreakdown = s.TotalExecutions
    ∧ (0 < s.TotalExecutions →
        s.SuccessRate = (s.SuccessCount : ℚ) / (s.TotalExecutions : ℚ))

/-! ### Index names and metadata creation (internal/database/index.go):
NormalizePaths, IndexName with its SHA-1 digest, CreateIndexMetadata -/

/-- ASCII whitespace predicate of strings.TrimSpace (tab, newline, vertical
tab, form feed, carriage return, space). -/
def isSpaceB (c : Char) : Bool :=
  c.toNat == 32 || (9 ≤ c.toNat && c.toNat ≤ 13)

/-- strings.TrimSpace. -/
def trimSpace (s : String) : String :=
  String.mk (((s.toList.dropWhile isSpaceB).reverse.dropWhile isSpaceB).reverse)

/-- The per-path normalization step of database.NormalizePaths: a path
already starting with a dollar is kept, one starting with a dot gains the
dollar, any other gains the dollar-dot prefix. -/
def canonPath (p : String) : String :=
  match p.toList with
  | c :: _ => if c = '$' then p else if c = '.' then "$" ++ p else "$." ++ p
  | [] => p

/-- The trimmed, non-empty, canonicalized paths in input order (the loop
body of NormalizePaths before the final sort). -/
def canonList (paths : List String) : List String :=
  ((paths.map trimSpace).filter (fun p => p != "")).map canonPath

/-- database.NormalizePaths: canonicalize each path, then sort for a stable
hashing order (sort.Strings). -/
def NormalizePaths (paths : List String) : List String :=
  List.insertionSort (· ≤ ·) (canonList paths)

/-- UTF-8 encoding of one character (Go []byte(string) content). -/
def encodeChar (c : Char) : List Nat :=
  let n := c.toNat
  if n < 128 then [n]
  else if n < 2048 then [192 + n / 64, 128 + n % 64]
  else if n < 65536 then [224 + n / 4096, 128 + (n / 64) % 64, 128 + n % 64]
  else [240 + n / 262144, 128 + (n / 4096) % 64, 128 + (n / 64) % 64, 128 + n % 64]

/-- UTF-8 bytes of a string, each in the range below 256. -/
def utf8Bytes (s : String) : List Nat :=
  s.toList.flatMap encodeChar

/-- Left rotation of a 32-bit word held in a Nat below 2 ^ 32. -/
def rotl32 (x n : Nat) : Nat :=
  ((x <<< n) % 4294967296) ||| (x >>> (32 - n))

/-- Big-endian 8-byte encoding of the bit length for SHA-1 padding. -/
def be64 (n : Nat) : List Nat :=
  (List.range 8).map (fun i => (n >>> (8 * (7 - i))) % 256)

/-- SHA-1 message padding: append the 0x80 byte, zeros up to 56 modulo 64,
then the 64-bit big-endian bit length. -/
def sha1pad (msg : List Nat) : List Nat :=
  let len := msg.length
  let padZeros := (55 - len % 64 + 64) % 64
  msg ++ [128] ++ List.replicate padZeros 0 ++ be64 (8 * len)

/-- Group bytes into 32-bit big-endian words. -/
def wordsOf : List Nat → List Nat
  | b0 :: b1 :: b2 :: b3 :: rest =>
      (((b0 * 256 + b1) * 256 + b2) * 256 + b3) :: wordsOf rest
  | _ => []

/-- Split a word list into 16-word blocks. -/
def blocksOf : List Nat → List (List Nat)
  | [] => []
  | w :: rest => ((w :: rest).take 16) :: blocksOf ((w :: rest).drop 16)
termination_by ws => ws.length
decreasing_by simp [List.length_drop]; omega

/-- The SHA-1 message-schedule extension step, over the reversed prefix of
the schedule (most recent word first). -/
def extendWord (acc : List Nat) : Nat :=
  rotl32 ((acc.getD 2 0) ^^^ (acc.getD 7 0) ^^^ (acc.getD 13 0) ^^^ (acc.getD 15 0)) 1

/-- Extend the 16-word schedule by n further words. -/
def extendLoop : Nat → List Nat → List Nat
  | 0, acc => acc
  | n + 1, acc => extendLoop n (extendWord acc :: acc)

/-- The SHA-1 round functions. -/
def sha1f (i b c d : Nat) : Nat :=
  if i < 20 then (b &&& c) ||| ((b ^^^ 4294967295) &&& d)
  else if i < 40 then b ^^^ c ^^^ d
  else if i < 60 then (b &&& c) ||| (b &&& d) ||| (c &&& d)
  else b ^^^ c ^^^ d

/-- The SHA-1 round constants. -/
def sha1k (i : Nat) : Nat :=
  if i < 20 then 1518500249
  else if i < 40 then 1859775393
  else if i < 60 then 2400959708
  else 3395469782

/-- The five 32-bit chaining words of SHA-1. -/
structure Sha1State where
  a : Nat
  b : Nat
  c : Nat
  d : Nat
  e : Nat
deriving Repr

/-- SHA-1 initial state. -/
def sha1init : Sha1State :=
  ⟨1732584193, 4023233417, 2562383102, 271733878, 3285377520⟩

/-- One SHA-1 round on the working registers. -/
def sha1round (st : Sha1State) (iw : Nat × Nat) : Sha1State :=
  let temp := (rotl32 st.a 5 + sha1f iw.1 st.b st.c st.d + st.e + sha1k iw.1 + iw.2)
    % 4294967296
  ⟨temp, st.a, rotl32 st.b 30, st.c, st.d⟩

/-- Compress one 16-word block into the chaining state. -/
def sha1block (h : Sha1State) (ws : List Nat) : Sha1State :=
  let schedule := (extendLoop 64 ws.reverse).reverse
  let f := ((List.range 80).zip schedule).foldl sha1round h
  ⟨(h.a + f.a) % 4294967296, (h.b + f.b) % 4294967296, (h.c + f.c) % 4294967296,
   (h.d + f.d) % 4294967296, (h.e + f.e) % 4294967296⟩

/-- Hex digit characters. -/
def hexDigit (n : Nat) : Char :=
  if n < 10 then Char.ofNat (48 + n) else Char.ofNat (87 + n)

/-- Two hex characters of one byte. -/
def hexByte (n : Nat) : List Char :=
  [hexDigit (n / 16), hexDigit (n % 16)]

/-- Eight hex characters of one big-endian word. -/
def hexWord (w : Nat) : List Char :=
  hexByte ((w >>> 24) % 256) ++ hexByte ((w >>> 16) % 256)
    ++ hexByte ((w >>> 8) % 256) ++ hexByte (w % 256)

/-- Lowercase hex digest of the SHA-1 of a byte sequence
(crypto/sha1 Sum followed by hex.EncodeToString). -/
def sha1hex (msg : List Nat) : String :=
  let h := (blocksOf (wordsOf (sha1pad msg))).foldl sha1block sha1init
  String.mk (hexWord h.a ++ hexWord h.b ++ hexWord h.c ++ hexWord h.d ++ hexWord h.e)

/-- database.IndexName: the deterministic index name, a prefix of collection
and the first ten hex characters of the SHA-1 of the paths joined with the
vertical bar. -/
def IndexName (collection : String) (paths : List String) : String :=
  "idx_" ++ collection ++ "_" ++ (sha1hex (utf8Bytes (String.intercalate "|" paths))).take 10

/-- The primary key of idx_metadata: set_name, collection_name, idx_name. -/
def sameIdxKey (r : IdxRow) (set collection idxName : String) : Bool :=
  r.set_name == set && r.collection_name == collection && r.idx_name == idxName

/-- database.CreateIndexMetadata: INSERT OR IGNORE of the creating row - a
row with the same primary key leaves the table unchanged, otherwise the new
row is appended with status creating and the paths joined by commas. -/
def CreateIndexMetadata (idx : List IdxRow) (set collection idxName : String)
    (paths : List String) (now : Int) : List IdxRow :=
  if idx.any (fun r => sameIdxKey r set collection idxName) then idx
  else idx ++ [⟨set, collection, idxName, String.intercalate "," paths,
    "creating", none, 0, none, now⟩]

/-- Number of idx_metadata rows with the given primary key. -/
def countIdxKey (idx : List IdxRow) (set collection idxName : String) : Nat :=
  (idx.filter (fun r => sameIdxKey r set collection idxName)).length

lemma and3_getD (a b : Option Bool) :
    (and3 a b).getD false = (a.getD false && b.getD false) := by
  revert a b; decide

lemma toSQL_in_singleton (x : Val) : ToSQL "$in" (.arr [x]) = .ok (.inList [x]) := rfl

lemma toSQL_eq (x : Val) : ToSQL "$eq" x = .ok (.cmp "=" x) := rfl

lemma selectsRow_in_singleton (x e : Val) :
    selectsRow "$in" (.arr [x]) e = selectsRow "$eq" x e := by
  simp only [selectsRow, toSQL_in_singleton, toSQL_eq, evalFrag, inList3,
    List.any_cons, List.any_nil, Bool.or_false]
  cases h : sqlEq e x with
  | none => simp [h]
  | some b => cases b <;> simp [h]

lemma selectsRow_between (lo hi e : Val) :
    selectsRow "$between" (.arr [lo, hi]) e
      = (selectsRow "$gte" lo e && selectsRow "$lte" hi e) := by
  simp only [selectsRow, evalFrag]
  exact and3_getD (sqlLe lo e) (sqlLe e hi)

lemma selectsRow_in_empty (e : Val) : selectsRow "$in" (.arr []) e = false := rfl

lemma selectsRow_nin_empty (e : Val) : selectsRow "$nin" (.arr []) e = true := rfl

/-- C5: the filter-to-SQL translation satisfies the algebraic laws of the
spec: an in filter with the one-element array [x] selects exactly the rows
the eq filter with x selects; between [lo,hi] selects exactly the rows of the
conjunction of gte lo and lte hi; in with the empty array selects no row; nin
with the empty array selects every row. Stated pointwise over the extracted
value of any row along any path, and lifted to row lists by filtering. -/
theorem C5_filter_operator_equivalences (x lo hi e : Val) (rows : List Val) :
    (selectsRow "$in" (.arr [x]) e = selectsRow "$eq" x e)
    ∧ (selectsRow "$between" (.arr [lo, hi]) e
        = (selectsRow "$gte" lo e && selectsRow "$lte" hi e))
    ∧ (selectsRow "$in" (.arr []) e = false)
    ∧ (selectsRow "$nin" (.arr []) e = true)
    ∧ (rows.filter (fun r => selectsRow "$in" (.arr [x]) r)
        = rows.filter (fun r => selectsRow "$eq" x r))
    ∧ (rows.filter (fun r => selectsRow "$in" (.arr []) r) = [])
    ∧ (rows.filter (fun r => selectsRow "$nin" (.arr []) r) = rows) := by
  refine ⟨selectsRow_in_singleton x e, selectsRow_between lo hi e,
    selectsRow_in_empty e, selectsRow_nin_empty e, ?_, ?_, ?_⟩
  · exact List.filter_congr (fun r _ => selectsRow_in_singleton x r)
  · simp [selectsRow_in_empty]
  · simp [selectsRow_nin_empty]

/-- C1: the transaction of a stored-function execution commits exactly when
the script ran to completion without a runtime error, did not time out, and
the extracted http_status lies in the range from 200 inclusive to 300
exclusive; and the table after the call carries all accumulated db effects
when it commits and none when it rolls back. -/
theorem C1_commit_policy (tbl : Table) (outcome : ScriptOutcome) :
    ((ExecuteFunction tbl outcome).2.2 = specCommitPolicy outcome)
    ∧ ((ExecuteFunction tbl outcome).1
        = if specCommitPolicy outcome then applyEffects tbl outcome.effects
          else tbl) := by
  cases outcome with
  | completed s effs =>
      refine ⟨?_, ?_⟩ <;>
        simp [ExecuteFunction, ServiceExecuteFunction, shouldCommit,
          specCommitPolicy, runInTx, ScriptOutcome.effects]
  | luaError msg effs =>
      refine ⟨?_, ?_⟩ <;>
        simp [ExecuteFunction, ServiceExecuteFunction, shouldCommit,
          specCommitPolicy, runInTx, ScriptOutcome.effects]
  | timedOut effs =>
      refine ⟨?_, ?_⟩ <;>
        simp [ExecuteFunction, ServiceExecuteFunction, shouldCommit,
          specCommitPolicy, runInTx, ScriptOutcome.effects]

/-- C2: a sandbox execution leaves the database exactly as it found it,
whatever the script outcome or http_status, and its response data always
carries the fixed no-persistence warning string. -/
theorem C2_sandbox_identity (tbl : Table) (outcome : ScriptOutcome) :
    (ExecuteSandbox tbl outcome).1 = tbl
    ∧ (ExecuteSandbox tbl outcome).2.Warning
        = "Sandbox mode - no changes were saved" :=
  ⟨rfl, rfl⟩

lemma sumBreakdown_bumpKey (b : List (String × Int)) (k : String) :
    sumBreakdown (bumpKey b k) = sumBreakdown b + 1 := by
  induction b with
  | nil => simp [bumpKey, sumBreakdown]
  | cons hd tl ih =>
      obtain ⟨k0, n⟩ := hd
      by_cases h : (k0 == k) = true
      · simp [bumpKey, h, sumBreakdown]
        ring
      · simp only [bumpKey, h, if_neg]
        simp only [sumBreakdown, List.map_cons, List.sum_cons] at ih ⊢
        simp [ih]
        omega

lemma statsInvariant_new : statsInvariant NewFunctionStats := by
  refine ⟨rfl, rfl, ?_⟩
  intro h
  simp [NewFunctionStats] at h

lemma statsInvariant_update (s : FunctionStats) (st : Int) (d : ℚ) (n : String)
    (h : statsInvariant s) : statsInvariant (UpdateStats s st d n) := by
  obtain ⟨h1, h2, h3⟩ := h
  refine ⟨?_, ?_, ?_⟩
  · by_cases hc : (decide (200 ≤ st) && decide (st < 300)) = true <;>
      simp [UpdateStats, hc] <;> omega
  · simp [UpdateStats, sumBreakdown_bumpKey, h2]
  · intro hpos
    simp only [UpdateStats] at hpos ⊢
    rw [if_pos hpos]

lemma statsInvariant_foldl (l : List (Int × ℚ × String)) (s : FunctionStats)
    (h : statsInvariant s) :
    statsInvariant (l.foldl (fun s u => UpdateStats s u.1 u.2.1 u.2.2) s) := by
  induction l generalizing s with
  | nil => exact h
  | cons hd tl ih =>
      exact ih _ (statsInvariant_update s hd.1 hd.2.1 hd.2.2 h)

/-- C10: starting from NewFunctionStats and applying any finite sequence of
UpdateStats calls, the total equals success plus error count, the sum of the
breakdown values equals the total (each execution is counted under exactly one
stringified-status key), and whenever the total is positive the success rate
equals success count over total. -/
theorem C10_stats_invariants (updates : List (Int × ℚ × String)) :
    (applyAllStats updates).TotalExecutions
        = (applyAllStats updates).SuccessCount
            + (applyAllStats updates).ErrorCount
    ∧ sumBreakdown (applyAllStats updates).ErrorBreakdown
        = (applyAllStats updates).TotalExecutions
    ∧ (0 < (applyAllStats updates).TotalExecutions →
        (applyAllStats updates).SuccessRate
          = ((applyAllStats updates).SuccessCount : ℚ)
              / ((applyAllStats updates).TotalExecutions : ℚ)) :=
  statsInvariant_foldl updates NewFunctionStats statsInvariant_new

/-- C10 witness: a concrete two-execution history (one success, one 404) has
a positive total and success rate one half, by the theorem. -/
theorem C10_stats_invariants_witness :
    0 < (applyAllStats [(200, 5, "t"), (404, 7, "t")]).TotalExecutions
    ∧ (applyAllStats [(200, 5, "t"), (404, 7, "t")]).SuccessRate
        = ((applyAllStats [(200, 5, "t"), (404, 7, "t")]).SuccessCount : ℚ)
            / ((applyAllStats [(200, 5, "t"), (404, 7, "t")]).TotalExecutions : ℚ) :=
  ⟨by decide, (C10_stats_invariants [(200, 5, "t"), (404, 7, "t")]).2.2 (by decide)⟩

lemma find?_append_right {α} (p : α → Bool) (l1 l2 : List α)
    (h : ∀ x ∈ l1, p x = false) : (l1 ++ l2).find? p = l2.find? p := by
  induction l1 with
  | nil => rfl
  | cons a l ih =>
      have ha := h a (by simp)
      rw [List.cons_append, List.find?_cons_of_neg _ (by simp [ha])]
      exact ih (fun x hx => h x (by simp [hx]))

/-- C3: every body accepted by CreateDocument is written with created_at
equal to updated_at equal to now under a fresh id, the response is a 201
whose meta stamps both equal to now, and a subsequent GetDocument on the new
table succeeds with the same sanitized payload and a synthesized meta whose
created_at equals its updated_at. -/
theorem C3_create_then_get (check : Doc → Option String) (tbl tbl2 : Table)
    (collection : String) (body : Doc) (freshId : String) (now : Int)
    (resp : DocResponse)
    (h : CreateDocument check tbl collection body freshId now = .ok (tbl2, resp)) :
    resp.status = 201 ∧ resp.metaCreated = now ∧ resp.metaUpdated = now
    ∧ resp.metaCreated = resp.metaUpdated
    ∧ tbl2 = tbl ++ [⟨freshId, collection, resp.data, now, now⟩]
    ∧ GetDocument tbl2 collection freshId
        = .ok ⟨200, resp.data, freshId, now, now⟩ := by
  unfold CreateDocument at h
  split at h
  · exact absurd h (by simp)
  · split at h
    · exact absurd h (by simp)
    · split at h
      · exact absurd h (by simp)
      · rename_i hdup
        simp only [Except.ok.injEq, Prod.mk.injEq] at h
        obtain ⟨htbl, hresp⟩ := h
        subst htbl
        subst hresp
        refine ⟨rfl, rfl, rfl, rfl, rfl, ?_⟩
        unfold GetDocument
        rw [find?_append_right]
        · simp [List.find?]
        · intro x hx
          have hx2 : (x.id == freshId) = false := by
            by_contra hcon
            exact hdup (List.any_eq_true.mpr ⟨x, hx, by simpa using hcon⟩)
          simp [hx2]

/-- C3 witness: a concrete create of a one-field document (with a stripped
_meta in the body) on an empty table, followed by the get that finds it with
equal timestamps. -/
theorem C3_create_then_get_witness :
    (201 : Nat) = 201 ∧ (100 : Int) = 100 ∧ (100 : Int) = 100
    ∧ (100 : Int) = 100
    ∧ ([⟨"id1", "users", [("name", .str "Alice")], 100, 100⟩] : Table)
        = [] ++ [⟨"id1", "users", [("name", .str "Alice")], 100, 100⟩]
    ∧ GetDocument [⟨"id1", "users", [("name", .str "Alice")], 100, 100⟩]
        "users" "id1"
        = .ok ⟨200, [("name", .str "Alice")], "id1", 100, 100⟩ :=
  C3_create_then_get (fun _ => none) [] [⟨"id1", "users", [("name", .str "Alice")], 100, 100⟩]
    "users" [("name", .str "Alice"), ("_meta", .obj [])] "id1" 100
    ⟨201, [("name", .str "Alice")], "id1", 100, 100⟩ rfl

/-- C4: evaluating ReplaceDocument where no row matches the id and
collection: the UPDATE silently affects nothing and the follow-up SELECT of
the timestamps fails with the raw driver error, which writeErr reports as a
500, not as the 404 the spec requires; a matching row is updated and
answered with a 200, as the spec says. -/
theorem C4_replace_missing_row_gives_500 :
    ReplaceDocument (fun _ => none) [] "c" "doc1" [("a", .num 1)] 100
        = .error ⟨500, "sql: no rows in result set"⟩
    ∧ ReplaceDocument (fun _ => none)
          [⟨"doc1", "c", [("old", .num 0)], 50, 50⟩] "c" "doc1"
          [("a", .num 1)] 100
        = .ok ([⟨"doc1", "c", [("a", .num 1)], 50, 100⟩],
               ⟨200, [("a", .num 1)], "doc1", 50, 100⟩) :=
  ⟨rfl, rfl⟩

/-- C6 counterexample: a successful query with an empty result set answers
with data JSON null (the marshalled nil slice), which is a different wire
value from the empty list the claim requires. -/
theorem C6_empty_query_counterexample :
    (QueryCollection ⟨[], []⟩ "c" [] 0 (-1)).2.2.2 = RespData.null
    ∧ RespData.null ≠ RespData.list [] :=
  ⟨rfl, fun h => RespData.noConfusion h⟩

/-- C6 amended: for every query that succeeds with an empty result set, the
REST QueryCollection handler marshals its nil results slice, so the response
data is JSON null, never the empty list; the MCP query_collection variant
replaces the nil slice and answers with the empty list. -/
theorem C6_empty_query_data (st : ServerState) (collection : String)
    (conds : List WhereCond) (limit offset : Int)
    (h : matchedRows st.tbl collection conds = []) :
    (QueryCollection st collection conds limit offset).2.2.2 = RespData.null
    ∧ (QueryCollectionMCP st collection conds limit offset).2.2.2
        = RespData.list [] := by
  constructor <;> simp [QueryCollection, QueryCollectionMCP, h, applyPage]

/-- C6 witness: a concrete table whose only row lives in another collection
yields an empty result, null data on REST and the empty list on MCP. -/
theorem C6_empty_query_data_witness :
    (QueryCollection ⟨[⟨"d1", "other", [], 1, 1⟩], []⟩ "c" [] 3 0).2.2.2
        = RespData.null
    ∧ (QueryCollectionMCP ⟨[⟨"d1", "other", [], 1, 1⟩], []⟩ "c" [] 3 0).2.2.2
        = RespData.list [] :=
  C6_empty_query_data ⟨[⟨"d1", "other", [], 1, 1⟩], []⟩ "c" [] 3 0 rfl

/-- C7: the where-clause canonicalizer maps the dotted form to the
dollar-dot form and doubles single quotes, but it prepends the prefix
unconditionally, so the already-prefixed spelling of the same path
canonicalizes to a different, doubly-prefixed path that extracts nothing
from an ordinary document - the two spellings are not equivalent. -/
theorem C7_path_canonicalization_divergence :
    toJSONPath "a.b.c" = "$.a.b.c"
    ∧ toJSONPath "$.a.b.c" = "$.$.a.b.c"
    ∧ toJSONPath "$.a.b.c" ≠ toJSONPath "a.b.c"
    ∧ toJSONPath ("a.b" ++ squoteStr ++ "c")
        = "$.a.b" ++ squoteStr ++ squoteStr ++ "c"
    ∧ jsonExtract (.obj [("user", .obj [("age", .num 30)])])
        (toJSONPath "user.age") = Val.num 30
    ∧ jsonExtract (.obj [("user", .obj [("age", .num 30)])])
        (toJSONPath "$.user.age") = Val.null :=
  ⟨by decide, by decide, by decide, by decide, rfl, rfl⟩

/-- C8: a successful query leaves every idx_metadata row untouched - the
REST handler never invokes UpdateIndexUsage - even when a ready index for
the queried set and collection has its whole path set among the used paths;
UpdateIndexUsage itself, had it been called with the used paths, would have
incremented that usage counter and stamped last_used_at. -/
theorem C8_query_does_not_bump_usage :
    (QueryCollection
        ⟨[⟨"d1", "people", [("age", .num 30)], 5, 5⟩],
         [⟨"s", "people", "idx1", "$.age", "ready", none, 0, none, 10⟩]⟩
        "people" [("age", "$gte", .num 25)] 0 (-1)).1.idx
      = [⟨"s", "people", "idx1", "$.age", "ready", none, 0, none, 10⟩]
    ∧ (QueryCollection
        ⟨[⟨"d1", "people", [("age", .num 30)], 5, 5⟩],
         [⟨"s", "people", "idx1", "$.age", "ready", none, 0, none, 10⟩]⟩
        "people" [("age", "$gte", .num 25)] 0 (-1)).2.1 = 200
    ∧ (QueryCollection
        ⟨[⟨"d1", "people", [("age", .num 30)], 5, 5⟩],
         [⟨"s", "people", "idx1", "$.age", "ready", none, 0, none, 10⟩]⟩
        "people" [("age", "$gte", .num 25)] 0 (-1)).2.2.2
      = RespData.list [docWithMeta ⟨"d1", "people", [("age", .num 30)], 5, 5⟩]
    ∧ UpdateIndexUsage
        [⟨"s", "people", "idx1", "$.age", "ready", none, 0, none, 10⟩]
        "s" "people" ["$.age"] 99
      = [⟨"s", "people", "idx1", "$.age", "ready", none, 1, some 99, 10⟩] :=
  ⟨rfl, rfl, rfl, rfl⟩

lemma createIndexMetadata_of_any (idx : List IdxRow)
    (set collection idxName : String) (paths : List String) (now : Int)
    (h : idx.any (fun r => sameIdxKey r set collection idxName) = true) :
    CreateIndexMetadata idx set collection idxName paths now = idx := by
  simp [CreateIndexMetadata, h]

lemma any_of_countIdxKey_pos (idx : List IdxRow)
    (set collection idxName : String)
    (h : 0 < countIdxKey idx set collection idxName) :
    idx.any (fun r => sameIdxKey r set collection idxName) = true := by
  unfold countIdxKey at h
  obtain ⟨r, hr⟩ := List.exists_mem_of_length_pos h
  have := List.mem_filter.mp hr
  exact List.any_eq_true.mpr ⟨r, this.1, this.2⟩

lemma countIdxKey_create_of_zero (idx : List IdxRow)
    (set collection idxName : String) (paths : List String) (now : Int)
    (h : countIdxKey idx set collection idxName = 0) :
    countIdxKey (CreateIndexMetadata idx set collection idxName paths now)
      set collection idxName = 1 := by
  have hnil : idx.filter (fun r => sameIdxKey r set collection idxName) = [] :=
    List.length_eq_zero.mp h
  have hany : idx.any (fun r => sameIdxKey r set collection idxName) = false := by
    rw [List.any_eq_false]
    intro x hx
    intro hpx
    have : x ∈ idx.filter (fun r => sameIdxKey r set collection idxName) :=
      List.mem_filter.mpr ⟨hx, hpx⟩
    simp [hnil] at this
  unfold CreateIndexMetadata
  rw [hany]
  simp only [Bool.false_eq_true, if_false, countIdxKey, List.filter_append]
  rw [hnil]
  simp [sameIdxKey]

lemma countIdxKey_foldl_stays (set collection idxName : String)
    (paths : List String) (nows : List Int) (idx : List IdxRow)
    (h : countIdxKey idx set collection idxName = 1) :
    countIdxKey
      (nows.foldl
        (fun t now => CreateIndexMetadata t set collection idxName paths now)
        idx) set collection idxName = 1 := by
  induction nows generalizing idx with
  | nil => exact h
  | cons n rest ih =>
      have hany := any_of_countIdxKey_pos idx set collection idxName (by omega)
      simp only [List.foldl_cons,
        createIndexMetadata_of_any idx set collection idxName paths n hany]
      exact ih idx h

/-- C9: the index name is a deterministic function of the collection and the
normalized, sorted path list - any permutation or re-spelling of the same
paths (same canonical forms up to order) yields the same name - and any
non-empty sequence of CreateIndexMetadata calls for that name leaves exactly
one idx_metadata row for its key in a table that had none. -/
theorem C9_index_creation_idempotent (set collection : String)
    (ps qs : List String) (idx : List IdxRow) (nows : List Int)
    (hperm : List.Perm (canonList ps) (canonList qs))
    (h0 : countIdxKey idx set collection
        (IndexName collection (NormalizePaths ps)) = 0)
    (hne : nows ≠ []) :
    IndexName collection (NormalizePaths ps)
        = IndexName collection (NormalizePaths qs)
    ∧ countIdxKey
        (nows.foldl
          (fun t now => CreateIndexMetadata t set collection
            (IndexName collection (NormalizePaths ps)) (NormalizePaths ps) now)
          idx)
        set collection (IndexName collection (NormalizePaths ps)) = 1 := by
  have hsort : NormalizePaths ps = NormalizePaths qs :=
    List.eq_of_perm_of_sorted
      ((List.perm_insertionSort _ _).trans
        (hperm.trans (List.perm_insertionSort _ _).symm))
      (List.sorted_insertionSort _ _) (List.sorted_insertionSort _ _)
  refine ⟨by rw [hsort], ?_⟩
  cases nows with
  | nil => exact absurd rfl hne
  | cons n rest =>
      simp only [List.foldl_cons]
      exact countIdxKey_foldl_stays _ _ _ _ rest _
        (countIdxKey_create_of_zero idx _ _ _ _ n h0)

/-- C9 witness: two spellings of the same two paths, in different order and
with surrounding space, yield the same index name; two consecutive creates
on an empty metadata table leave exactly one row. -/
theorem C9_index_creation_idempotent_witness :
    IndexName "users" (NormalizePaths [" user.email", "b"])
        = IndexName "users" (NormalizePaths ["$.b", ".user.email"])
    ∧ countIdxKey
        ([(1 : Int), 2].foldl
          (fun t now => CreateIndexMetadata t "s" "users"
            (IndexName "users" (NormalizePaths [" user.email", "b"]))
            (NormalizePaths [" user.email", "b"]) now)
          [])
        "s" "users" (IndexName "users" (NormalizePaths [" user.email", "b"])) = 1 :=
  C9_index_creation_idempotent "s" "users" [" user.email", "b"]
    ["$.b", ".user.email"] [] [1, 2] (by decide) rfl (by decide)

end MicroApi
